import Mathlib

/-!
Verification development for the trade-perf-analyzer repository.

The request/parameter validation schemas, the Express route handlers and the
storage layer are embedded from the TypeScript sources (shared schema file,
`server/routes.ts`, `server/storage.ts`).  The backtesting engine itself
(FastAPI `main.py`) is not part of the available sources; the engine
components (signal generators, strategy engine, portfolio simulator,
benchmark tracker, performance analyzer, orchestrator) are modelled from the
specification, as noted on each definition.

Numbers handled by the JavaScript/Python code are modelled as rationals
(`ℚ`); the real-valued statistics (standard deviation, Sharpe ratio,
annualised return) are modelled over `ℝ`.
-/

namespace TradePerf

/-! ## Request validation schemas (shared zod schema file) -/

/-- Parameter set for the `sma_crossover` strategy, as in `smaParametersSchema`:
both fields are zod `number`s (arbitrary finite numbers, not restricted to
integers). -/
structure SmaParameters where
  shortPeriod : ℚ
  longPeriod : ℚ
  deriving DecidableEq

/-- Acceptance predicate of `smaParametersSchema`:
`shortPeriod: z.number().min(1).max(50)`, `longPeriod: z.number().min(2).max(200)`. -/
def smaParametersAccepts (p : SmaParameters) : Bool :=
  decide (1 ≤ p.shortPeriod) && decide (p.shortPeriod ≤ 50) &&
  decide (2 ≤ p.longPeriod) && decide (p.longPeriod ≤ 200)

/-- Parameter set for the `rsi_threshold` strategy, as in `rsiParametersSchema`. -/
structure RsiParameters where
  period : ℚ
  overbought : ℚ
  oversold : ℚ
  deriving DecidableEq

/-- Acceptance predicate of `rsiParametersSchema`:
`period: z.number().min(2).max(50)`, `overbought: z.number().min(50).max(100)`,
`oversold: z.number().min(0).max(50)`. -/
def rsiParametersAccepts (p : RsiParameters) : Bool :=
  decide (2 ≤ p.period) && decide (p.period ≤ 50) &&
  decide (50 ≤ p.overbought) && decide (p.overbought ≤ 100) &&
  decide (0 ≤ p.oversold) && decide (p.oversold ≤ 50)

/-- The two members of `strategyTypes`. -/
inductive StrategyType where
  | sma_crossover
  | rsi_threshold
  deriving DecidableEq

/-- Value of one entry of the request `parameters` record:
`z.union([z.string(), z.number()])`. -/
inductive ParamValue where
  | str (s : String)
  | num (q : ℚ)
  deriving DecidableEq

/-- Backtest request, as in `backtestRequestSchema`. -/
structure BacktestRequest where
  ticker : String
  startDate : String
  endDate : String
  strategy : StrategyType
  parameters : List (String × ParamValue)
  initialCapital : ℚ

/-- Check for the zod regex `^\d\x7b4\x7d-\d\x7b2\x7d-\d\x7b2\x7d$`
(four digits, dash, two digits, dash, two digits). -/
def isDateString (s : String) : Bool :=
  match s.toList with
  | [y1, y2, y3, y4, h1, m1, m2, h2, d1, d2] =>
    y1.isDigit && y2.isDigit && y3.isDigit && y4.isDigit &&
    (h1 == '-') && m1.isDigit && m2.isDigit && (h2 == '-') &&
    d1.isDigit && d2.isDigit
  | _ => false

/-- Capital validator of `backtestRequestSchema`:
`initialCapital: z.number().min(1000, "Minimum capital is $1000")`. -/
def capitalCheck (r : BacktestRequest) : Bool :=
  decide (1000 ≤ r.initialCapital)

/-- Acceptance predicate of `backtestRequestSchema`.  The `parameters` field is
validated only as a record of strings/numbers (`z.record(z.union([z.string(),
z.number()]))`), so it imposes no constraint in this model; `strategy` is
already a member of the enum by typing. -/
def backtestRequestAccepts (r : BacktestRequest) : Bool :=
  decide (1 ≤ r.ticker.length) && decide (r.ticker.length ≤ 10) &&
  isDateString r.startDate && isDateString r.endDate &&
  capitalCheck r

/-- Predicate asserted by the claim for `sma_crossover` parameters:
integers, in range, and `shortPeriod < longPeriod`. -/
def smaClaimPred (p : SmaParameters) : Prop :=
  p.shortPeriod.den = 1 ∧ 1 ≤ p.shortPeriod ∧ p.shortPeriod ≤ 50 ∧
  p.longPeriod.den = 1 ∧ 2 ≤ p.longPeriod ∧ p.longPeriod ≤ 200 ∧
  p.shortPeriod < p.longPeriod

instance (p : SmaParameters) : Decidable (smaClaimPred p) := by
  unfold smaClaimPred; infer_instance

/-- Predicate asserted by the claim for `rsi_threshold` parameters:
integral period, ranges, and `oversold < overbought`. -/
def rsiClaimPred (p : RsiParameters) : Prop :=
  p.period.den = 1 ∧ 2 ≤ p.period ∧ p.period ≤ 50 ∧
  0 ≤ p.oversold ∧ p.oversold ≤ 50 ∧
  50 ≤ p.overbought ∧ p.overbought ≤ 100 ∧
  p.oversold < p.overbought

instance (p : RsiParameters) : Decidable (rsiClaimPred p) := by
  unfold rsiClaimPred; infer_instance

/-! ## Engine data model

The FastAPI engine source (`main.py`) is not among the available sources;
the definitions below are modelled from the specification (its data model
and component design sections), and say so individually. -/

/-- Modelled from the spec: a `PriceBar` of the missing engine, one dated
daily closing price.  The calendar day is modelled as an ordinal day
number. -/
structure PriceBar where
  date : ℕ
  close : ℚ
  deriving DecidableEq

/-- Trade action, `buy` or `sell`. -/
inductive TradeAction where
  | buy
  | sell
  deriving DecidableEq

/-- Modelled from the spec: a `Trade` record of the missing engine, created
at a position-state transition. -/
structure Trade where
  date : ℕ
  action : TradeAction
  price : ℚ
  shares : ℚ
  value : ℚ
  deriving DecidableEq

/-- Modelled from the spec: a `PortfolioSnapshot` of the missing engine, one
per date of the series. -/
structure PortfolioSnapshot where
  date : ℕ
  cash : ℚ
  sharesHeld : ℚ
  stockValue : ℚ
  portfolioValue : ℚ
  deriving DecidableEq

/-- Modelled from the spec: a `BenchmarkSnapshot` of the missing engine. -/
structure BenchmarkSnapshot where
  date : ℕ
  value : ℚ
  deriving DecidableEq

/-- Running simulator balances (cash, sharesHeld). -/
structure SimState where
  cash : ℚ
  sharesHeld : ℚ
  deriving DecidableEq

/-- Modelled from the spec: one day of the missing engine's Portfolio
Simulator.  `prev`/`today` are yesterday's and today's position states
(`true` = LONG); FLAT→LONG buys with all available cash at today's close
using exact fractional shares, LONG→FLAT sells the whole position. -/
def simStep (prev today : Bool) (bar : PriceBar) (st : SimState) :
    SimState × Option Trade :=
  if today && !prev then
    let shares := st.cash / bar.close
    (⟨st.cash - shares * bar.close, shares⟩,
      some ⟨bar.date, TradeAction.buy, bar.close, shares, shares * bar.close⟩)
  else if prev && !today then
    let proceeds := st.sharesHeld * bar.close
    (⟨st.cash + proceeds, 0⟩,
      some ⟨bar.date, TradeAction.sell, bar.close, st.sharesHeld, proceeds⟩)
  else (st, none)

/-- Modelled from the spec: the missing engine's Portfolio Simulator walk.
Replays the bars in date order, one snapshot per date with post-transaction
balances valued at the day's close. -/
def simRun : Bool → SimState → List Bool → List PriceBar →
    List Trade × List PortfolioSnapshot
  | _, _, [], _ => ([], [])
  | _, _, _, [] => ([], [])
  | prev, st, today :: ps, bar :: bars =>
    let step := simStep prev today bar st
    let rest := simRun today step.1 ps bars
    (step.2.toList ++ rest.1,
      ⟨bar.date, step.1.cash, step.1.sharesHeld, step.1.sharesHeld * bar.close,
        step.1.cash + step.1.sharesHeld * bar.close⟩ :: rest.2)

/-- Modelled from the spec: the missing engine's Portfolio Simulator entry
point, starting FLAT with balances (initialCapital, 0). -/
def simulate (initialCapital : ℚ) (positions : List Bool) (bars : List PriceBar) :
    List Trade × List PortfolioSnapshot :=
  simRun false ⟨initialCapital, 0⟩ positions bars

/-- Modelled from the spec: the missing engine's Benchmark Tracker,
`value[i] = initialCapital * close[i] / close[0]`, independent of the
strategy. -/
def benchmarkHistory (initialCapital : ℚ) (bars : List PriceBar) :
    List BenchmarkSnapshot :=
  match bars with
  | [] => []
  | b0 :: _ => bars.map fun b => ⟨b.date, initialCapital * b.close / b0.close⟩

/-! ## Performance Analyzer (modelled from the spec) -/

/-- Modelled from the spec: the missing engine's chronological (buy, sell)
round-trip pairing; an unmatched trailing trade is excluded. -/
def roundTrips : List Trade → List (Trade × Trade)
  | b :: s :: rest => (b, s) :: roundTrips rest
  | _ => []

/-- Check that a trade log alternates actions, starting with a `buy` when
`expBuy` is `true` and with a `sell` otherwise. -/
def tradeAltOk : Bool → List Trade → Bool
  | _, [] => true
  | expBuy, t :: r =>
    ((t.action == TradeAction.buy) == expBuy) && tradeAltOk (!expBuy) r

/-- Number of `buy` trades in a log. -/
def buyCount (l : List Trade) : ℕ :=
  l.countP fun t => t.action == TradeAction.buy

/-- Number of `sell` trades in a log. -/
def sellCount (l : List Trade) : ℕ :=
  l.countP fun t => t.action == TradeAction.sell

/-- Buys minus sells, as an integer. -/
def netLong (l : List Trade) : ℤ :=
  (buyCount l : ℤ) - (sellCount l : ℤ)

/-- Modelled from the spec: a round trip is profitable iff its sell value
exceeds its paired buy value. -/
def profitableTradeCount (l : List Trade) : ℕ :=
  (roundTrips l).countP fun rt => decide (rt.1.value < rt.2.value)

/-- Modelled from the spec: `winRate` = profitable round trips over total
round trips times 100, with 0 as the sentinel when there are no round
trips. -/
def winRate (l : List Trade) : ℚ :=
  if (roundTrips l).length = 0 then 0
  else (profitableTradeCount l : ℚ) / (roundTrips l).length * 100

/-- Modelled from the spec: daily returns of a portfolio value series. -/
def dailyReturns : List ℚ → List ℚ
  | v0 :: v1 :: rest => (v1 - v0) / v0 :: dailyReturns (v1 :: rest)
  | _ => []

/-- Arithmetic mean of a rational list (0 on the empty list, since `x / 0 = 0`). -/
def meanQ (l : List ℚ) : ℚ :=
  l.sum / l.length

/-- Modelled from the spec: population variance of the daily returns of a
portfolio value series. -/
def dailyVariance (values : List ℚ) : ℚ :=
  let rs := dailyReturns values
  let m := meanQ rs
  (rs.map fun r => (r - m) ^ 2).sum / rs.length

/-- Modelled from the spec: daily volatility, the standard deviation of the
daily returns. -/
noncomputable def dailyVolatility (values : List ℚ) : ℝ :=
  Real.sqrt ((dailyVariance values : ℝ))

open Classical in
/-- Modelled from the spec: `sharpeRatio` = (mean daily return × 252) /
(daily volatility × sqrt 252), risk-free rate 0, defined as 0 when the
volatility is 0 rather than raising a division error. -/
noncomputable def sharpeRatio (values : List ℚ) : ℝ :=
  if dailyVolatility values = 0 then 0
  else (meanQ (dailyReturns values) : ℝ) * 252 /
    (dailyVolatility values * Real.sqrt 252)

/-- Modelled from the spec: `totalReturn` = (final − initial) / initial × 100. -/
def totalReturn (initialCapital finalValue : ℚ) : ℚ :=
  (finalValue - initialCapital) / initialCapital * 100

/-- Modelled from the spec: `annualizedReturn` =
((final/initial)^(365/daysElapsed) − 1) × 100, falling back to `totalReturn`
when `daysElapsed ≤ 0`. -/
noncomputable def annualizedReturn (initialCapital finalValue : ℚ)
    (daysElapsed : ℤ) : ℝ :=
  if daysElapsed ≤ 0 then (totalReturn initialCapital finalValue : ℝ)
  else (((finalValue / initialCapital : ℚ) : ℝ) ^ ((365 : ℝ) / (daysElapsed : ℝ)) - 1)
    * 100

/-- Running-peak scan for the maximum drawdown. -/
def maxDrawdownAux : ℚ → ℚ → List ℚ → ℚ
  | _, best, [] => best
  | peak, best, v :: rest =>
    let peak' := max peak v
    maxDrawdownAux peak' (max best ((peak' - v) / peak' * 100)) rest

/-- Modelled from the spec: `maxDrawdown`, the maximum peak-to-trough
percentage decline of the portfolio value series, single scan with a running
peak, expressed as a positive percentage. -/
def maxDrawdown : List ℚ → ℚ
  | [] => 0
  | v :: rest => maxDrawdownAux v 0 (v :: rest)

/-! ## Signal generators and strategy engine (modelled from the spec) -/

/-- Modelled from the spec: strategy configuration of the missing engine,
one of `sma_crossover` and `rsi_threshold` with its numeric parameters. -/
inductive StrategyConfig where
  | sma (shortPeriod longPeriod : ℕ)
  | rsi (period : ℕ) (oversold overbought : ℚ)

/-- Modelled from the spec: simple moving average of window `w` at index
`i`, `none` while fewer than `w` bars are available. -/
def smaAt (w : ℕ) (closes : List ℚ) (i : ℕ) : Option ℚ :=
  if w = 0 ∨ i + 1 < w then none
  else some (((closes.drop (i + 1 - w)).take w).sum / w)

/-- Modelled from the spec: the `sma_crossover` per-bar rule, LONG iff the
short SMA is strictly above the long SMA, FLAT where either is undefined. -/
def smaPositions (shortP longP : ℕ) (closes : List ℚ) : List Bool :=
  (List.range closes.length).map fun i =>
    match smaAt shortP closes i, smaAt longP closes i with
    | some s, some l => decide (l < s)
    | _, _ => false

/-- Day-over-day close differences, `diff[j] = close[j+1] - close[j]`. -/
def priceDiffs (closes : List ℚ) : List ℚ :=
  List.zipWith (fun a b => b - a) closes closes.tail

/-- Modelled from the spec: RSI of window `w` at index `i`, using a simple
rolling average of the trailing `w` differences; `none` for `i < w`; 100
when the average loss is 0. -/
def rsiAt (w : ℕ) (closes : List ℚ) (i : ℕ) : Option ℚ :=
  if w = 0 ∨ i < w then none
  else
    let ds := ((priceDiffs closes).drop (i - w)).take w
    let avgGain := (ds.map fun d => max d 0).sum / (w : ℚ)
    let avgLoss := (ds.map fun d => max (-d) 0).sum / (w : ℚ)
    some (if avgLoss = 0 then 100 else 100 - 100 / (1 + avgGain / avgLoss))

/-- Modelled from the spec: one step of the `rsi_threshold` finite-state
walk; enter LONG at or below `oversold` when FLAT, exit at or above
`overbought` when LONG, otherwise the prior state persists. -/
def rsiStep (oversold overbought : ℚ) (st : Bool) (r : Option ℚ) : Bool :=
  match r with
  | none => st
  | some v =>
    if !st && decide (v ≤ oversold) then true
    else if st && decide (overbought ≤ v) then false
    else st

/-- Stateful walk of `rsiStep` over a list of bar indices. -/
def rsiWalk (w : ℕ) (oversold overbought : ℚ) (closes : List ℚ) :
    Bool → List ℕ → List Bool
  | _, [] => []
  | st, i :: is =>
    let st' := rsiStep oversold overbought st (rsiAt w closes i)
    st' :: rsiWalk w oversold overbought closes st' is

/-- Modelled from the spec: the `rsi_threshold` position series, starting
FLAT. -/
def rsiPositions (w : ℕ) (oversold overbought : ℚ) (closes : List ℚ) :
    List Bool :=
  rsiWalk w oversold overbought closes false (List.range closes.length)

/-- Modelled from the spec: the Strategy Engine, mapping a configuration and
the close series to one position decision per bar. -/
def decisions : StrategyConfig → List ℚ → List Bool
  | StrategyConfig.sma s l, closes => smaPositions s l closes
  | StrategyConfig.rsi p os ob, closes => rsiPositions p os ob closes

/-! ## Orchestrator (modelled from the spec) -/

/-- Modelled from the spec: the `PerformanceMetrics` record of the missing
engine. -/
structure PerformanceMetrics where
  totalReturn : ℝ
  annualizedReturn : ℝ
  volatility : ℝ
  sharpeRatio : ℝ
  maxDrawdown : ℝ
  winRate : ℝ
  totalTrades : ℕ
  profitableTrades : ℕ

/-- Modelled from the spec: the `BacktestResult` aggregate of the missing
engine. -/
structure BacktestRunResult where
  initialCapital : ℚ
  finalValue : ℚ
  trades : List Trade
  performance : PerformanceMetrics
  portfolioHistory : List PortfolioSnapshot
  benchmarkHistory : List BenchmarkSnapshot

/-- Final portfolio value: the last snapshot's value, or the initial capital
when there are no snapshots. -/
def finalValueOf (initialCapital : ℚ) (snaps : List PortfolioSnapshot) : ℚ :=
  (snaps.map PortfolioSnapshot.portfolioValue).getLastD initialCapital

/-- Calendar span in days between the first and last bar. -/
def daysElapsedOf (bars : List PriceBar) : ℤ :=
  match bars with
  | [] => 0
  | b :: _ => ((bars.getLastD b).date : ℤ) - (b.date : ℤ)

/-- Modelled from the spec: the missing engine's Performance Analyzer,
reducing the trade log and snapshot series to the metrics record. -/
noncomputable def computeMetrics (initialCapital : ℚ) (daysElapsed : ℤ)
    (trades : List Trade) (snaps : List PortfolioSnapshot) : PerformanceMetrics :=
  let values := snaps.map PortfolioSnapshot.portfolioValue
  let fv := finalValueOf initialCapital snaps
  ⟨(totalReturn initialCapital fv : ℝ),
    annualizedReturn initialCapital fv daysElapsed,
    dailyVolatility values * Real.sqrt 252 * 100,
    sharpeRatio values,
    (maxDrawdown values : ℝ),
    (winRate trades : ℝ),
    trades.length,
    profitableTradeCount trades⟩

/-- Modelled from the spec: the missing engine's full pipeline for one
validated request, a pure function of (capital, configuration, series). -/
noncomputable def runBacktest (initialCapital : ℚ) (cfg : StrategyConfig)
    (bars : List PriceBar) : BacktestRunResult :=
  let positions := decisions cfg (bars.map PriceBar.close)
  let sim := simulate initialCapital positions bars
  ⟨initialCapital, finalValueOf initialCapital sim.2, sim.1,
    computeMetrics initialCapital (daysElapsedOf bars) sim.1 sim.2,
    sim.2, benchmarkHistory initialCapital bars⟩

/-- Modelled from the spec: minimum number of bars the longest requested
indicator window needs. -/
def minBarsRequired : StrategyConfig → ℕ
  | StrategyConfig.sma _ l => l
  | StrategyConfig.rsi p _ _ => p + 1

/-- Modelled from the spec: the missing orchestrator; full validation first
(request schema, then data errors), simulation only afterwards, a single
descriptive failure otherwise and no partial result. -/
noncomputable def processBacktest (r : BacktestRequest) (cfg : StrategyConfig)
    (bars : List PriceBar) : Except String BacktestRunResult :=
  if backtestRequestAccepts r = false then Except.error "InvalidParameterError"
  else if bars.isEmpty then Except.error "EmptySeriesError"
  else if bars.length < minBarsRequired cfg then Except.error "InsufficientDataError"
  else Except.ok (runBacktest r.initialCapital cfg bars)

/-! ## Server process state (`server/routes.ts`) -/

/-- Shared `pythonProcess` handle of `routes.ts`, `none` when no subprocess
has been spawned. -/
def startPythonBackend (st : Option ℕ) : Option ℕ :=
  match st with
  | some h => some h
  | none => some 0

/-- Request handler for `POST /api/backtest` threaded through the shared
process handle: the body is forwarded to the engine (modelled from the spec
as the pure `processBacktest`) and the shared state is not consulted for the
computation. -/
noncomputable def handleBacktestRequest (st : Option ℕ) (r : BacktestRequest)
    (cfg : StrategyConfig) (bars : List PriceBar) :
    Option ℕ × Except String BacktestRunResult :=
  (st, processBacktest r cfg bars)

/-! ## Storage and lookup routes (`server/storage.ts`, `server/routes.ts`) -/

/-- Row of the `backtests` table (drizzle schema); `createdAt` is the
`created_at` timestamp as an ordinal, `id` the serial primary key. -/
structure BacktestRow where
  id : ℕ
  userId : String
  ticker : String
  startDate : String
  endDate : String
  strategy : String
  initialCapital : ℚ
  finalValue : ℚ
  totalReturn : ℚ
  createdAt : ℕ
  deriving DecidableEq

/-- Outcome of the `GET /api/backtest/:id` handler: the stored record
(`res.json(backtest)`), 404 "Backtest not found", or 403 "Access denied". -/
inductive GetBacktestResponse where
  | ok (b : BacktestRow)
  | notFound
  | forbidden
  deriving DecidableEq

/-- `storage.getBacktestResult`: select the row whose `id` matches. -/
def getBacktestResult (db : List BacktestRow) (id : ℕ) : Option BacktestRow :=
  (db.filter fun b => b.id == id).head?

/-- Handler of `GET /api/backtest/:id` in `routes.ts`: 404 when the lookup
finds nothing, 403 when the record's `userId` differs from the
authenticated user, the record otherwise. -/
def getBacktestByIdHandler (db : List BacktestRow) (userId : String) (id : ℕ) :
    GetBacktestResponse :=
  match getBacktestResult db id with
  | none => GetBacktestResponse.notFound
  | some b =>
    if b.userId ≠ userId then GetBacktestResponse.forbidden
    else GetBacktestResponse.ok b

/-- Ordering used by `orderBy(desc(backtests.createdAt))`: `a` comes before
`b` when `a.createdAt ≥ b.createdAt`. -/
def createdDesc (a b : BacktestRow) : Prop :=
  b.createdAt ≤ a.createdAt

instance : DecidableRel createdDesc :=
  fun a b => Nat.decLe b.createdAt a.createdAt

instance : IsTotal BacktestRow createdDesc :=
  ⟨fun a b => (Nat.le_total b.createdAt a.createdAt).imp id id⟩

instance : IsTrans BacktestRow createdDesc :=
  ⟨fun _ _ _ hab hbc => Nat.le_trans hbc hab⟩

/-- `storage.getUserBacktests`: rows whose `userId` matches, ordered by
`createdAt` descending, at most `limit` rows. -/
def getUserBacktests (db : List BacktestRow) (userId : String) (limit : ℕ) :
    List BacktestRow :=
  (List.insertionSort createdDesc (db.filter fun b => b.userId == userId)).take limit

/-- `storage.getUserBacktests` with its default `limit = 10`. -/
def getUserBacktestsDefault (db : List BacktestRow) (userId : String) :
    List BacktestRow :=
  getUserBacktests db userId 10

/-- Rational 21/2, written as an explicit fraction. -/
def ratTwentyOneHalves : ℚ := ⟨21, 2, by decide, by decide⟩

/-- Rational 21/4, written as an explicit fraction. -/
def ratTwentyOneQuarters : ℚ := ⟨21, 4, by decide, by decide⟩

/-- Rational 29/2, written as an explicit fraction. -/
def ratTwentyNineHalves : ℚ := ⟨29, 2, by decide, by decide⟩

/-- C1 counterexample: `smaParametersSchema` accepts `shortPeriod = 21/2`,
`longPeriod = 21/4` (neither an integer, and `shortPeriod > longPeriod`), and
`rsiParametersSchema` accepts `period = 29/2` (not an integer) with
`oversold = overbought = 50`; the claim requires all four inputs to be
rejected. -/
theorem c1_validation_counterexample :
    smaParametersAccepts ⟨ratTwentyOneHalves, ratTwentyOneQuarters⟩ = true ∧
    ¬ smaClaimPred ⟨ratTwentyOneHalves, ratTwentyOneQuarters⟩ ∧
    rsiParametersAccepts ⟨ratTwentyNineHalves, 50, 50⟩ = true ∧
    ¬ rsiClaimPred ⟨ratTwentyNineHalves, 50, 50⟩ := by
  refine ⟨by decide, ?_, by decide, ?_⟩
  · intro h
    exact absurd h.1 (by decide)
  · intro h
    exact absurd h.2.2.2.2.2.2.2 (by decide)

/-- C1 (amended): `smaParametersSchema` accepts a parameter set iff
`shortPeriod ∈ [1,50]` and `longPeriod ∈ [2,200]` (integrality is not
required and `shortPeriod < longPeriod` is not enforced), and
`rsiParametersSchema` accepts a parameter set iff `period ∈ [2,50]`,
`oversold ∈ [0,50]` and `overbought ∈ [50,100]` (integrality of `period` is
not required and `oversold < overbought` is not enforced). -/
theorem c1_validation_accepts_iff_bounds :
    ∀ (p : SmaParameters) (q : RsiParameters),
      (smaParametersAccepts p = true ↔
        (1 ≤ p.shortPeriod ∧ p.shortPeriod ≤ 50 ∧
         2 ≤ p.longPeriod ∧ p.longPeriod ≤ 200)) ∧
      (rsiParametersAccepts q = true ↔
        (2 ≤ q.period ∧ q.period ≤ 50 ∧
         50 ≤ q.overbought ∧ q.overbought ≤ 100 ∧
         0 ≤ q.oversold ∧ q.oversold ≤ 50)) := by
  intro p q
  constructor
  · simp [smaParametersAccepts, and_assoc]
  · simp [rsiParametersAccepts, and_assoc]

/-! ## Portfolio Simulator invariants -/

theorem netLong_nil : netLong [] = 0 := rfl

theorem netLong_cons (t : Trade) (l : List Trade) :
    netLong (t :: l) =
      netLong l + (match t.action with | TradeAction.buy => 1 | TradeAction.sell => -1) := by
  cases h : t.action <;>
    simp [netLong, buyCount, sellCount, List.countP_cons, h] <;> ring

theorem simRun_net_bound (bars : List PriceBar) :
    ∀ (prev : Bool) (st : SimState) (ps : List Bool) (n : ℕ),
      0 ≤ netLong ((simRun prev st ps bars).1.take n) + (if prev then 1 else 0) ∧
      netLong ((simRun prev st ps bars).1.take n) + (if prev then 1 else 0) ≤ 1 := by
  induction bars with
  | nil =>
    intro prev st ps n
    cases ps <;> cases prev <;> simp [simRun, netLong_nil]
  | cons bar bars ih =>
    intro prev st ps n
    cases ps with
    | nil => cases prev <;> simp [simRun, netLong_nil]
    | cons today ps =>
      have h := fun k => ih today (simStep prev today bar st).1 ps k
      cases prev <;> cases today <;>
        simp only [simRun, simStep, Bool.not_false, Bool.not_true, Bool.and_self,
          Bool.and_false, Bool.and_true, Bool.true_and, Bool.false_and,
          Bool.false_eq_true, reduceIte,
          if_true, if_false, Option.toList_some, Option.toList_none,
          List.nil_append, List.singleton_append, ite_true, ite_false] at h ⊢
      · simpa using h n
      · cases n with
        | zero => simp [netLong_nil]
        | succ m =>
          have hm := h m
          simp only [List.take_succ_cons, netLong_cons] at hm ⊢
          omega
      · cases n with
        | zero => simp [netLong_nil]
        | succ m =>
          have hm := h m
          simp only [List.take_succ_cons, netLong_cons] at hm ⊢
          omega
      · simpa using h n

/-- C2: for every price series and per-bar decision sequence, the trade log
of one Portfolio Simulator run keeps (number of buys) − (number of sells)
within 0..1 on every prefix, hence also at the end of the run: never a sell
without a prior matching buy, at most one unclosed position. -/
theorem c2_trade_count_invariant :
    ∀ (initialCapital : ℚ) (positions : List Bool) (bars : List PriceBar) (n : ℕ),
      0 ≤ netLong ((simulate initialCapital positions bars).1.take n) ∧
      netLong ((simulate initialCapital positions bars).1.take n) ≤ 1 := by
  intro cap ps bars n
  have h := simRun_net_bound bars false ⟨cap, 0⟩ ps n
  simpa [simulate] using h

theorem simRun_snapshots (bars : List PriceBar) :
    ∀ (prev : Bool) (st : SimState) (ps : List Bool), ps.length = bars.length →
      (simRun prev st ps bars).2.length = bars.length ∧
      (simRun prev st ps bars).2.map PortfolioSnapshot.date =
        bars.map PriceBar.date := by
  induction bars with
  | nil =>
    intro prev st ps h
    cases ps with
    | nil => simp [simRun]
    | cons a l => simp at h
  | cons bar bars ih =>
    intro prev st ps h
    cases ps with
    | nil => simp at h
    | cons today ps =>
      simp only [List.length_cons, Nat.succ.injEq] at h
      have h2 := ih today (simStep prev today bar st).1 ps h
      simp [simRun, h2.1, h2.2]

/-- C7: for every price series and every aligned decision sequence, the
Portfolio Simulator emits exactly one PortfolioSnapshot per input bar, in
the same date order as the input series. -/
theorem c7_one_snapshot_per_date :
    ∀ (initialCapital : ℚ) (positions : List Bool) (bars : List PriceBar),
      positions.length = bars.length →
      (simulate initialCapital positions bars).2.length = bars.length ∧
      (simulate initialCapital positions bars).2.map PortfolioSnapshot.date =
        bars.map PriceBar.date := by
  intro cap ps bars h
  simpa [simulate] using simRun_snapshots bars false ⟨cap, 0⟩ ps h

/-- C7 witness: a two-bar series with one buy decision yields exactly two
snapshots dated like the bars. -/
theorem c7_one_snapshot_per_date_witness :
    (simulate 1000 [false, true] [⟨1, 10⟩, ⟨2, 20⟩]).2.length = 2 ∧
    (simulate 1000 [false, true] [⟨1, 10⟩, ⟨2, 20⟩]).2.map PortfolioSnapshot.date =
      [1, 2] :=
  c7_one_snapshot_per_date 1000 [false, true] [⟨1, 10⟩, ⟨2, 20⟩] (by simp)

/-! ## Performance Analyzer: round trips and win rate -/

theorem simRun_alternation (bars : List PriceBar) :
    ∀ (prev : Bool) (st : SimState) (ps : List Bool),
      tradeAltOk (!prev) (simRun prev st ps bars).1 = true := by
  induction bars with
  | nil =>
    intro prev st ps
    cases ps <;> simp [simRun, tradeAltOk]
  | cons bar bars ih =>
    intro prev st ps
    cases ps with
    | nil => simp [simRun, tradeAltOk]
    | cons today ps =>
      have h := ih today (simStep prev today bar st).1 ps
      cases prev <;> cases today <;>
        simp only [simRun, simStep, Bool.not_false, Bool.not_true, Bool.and_self,
          Bool.and_false, Bool.and_true, Bool.true_and, Bool.false_and,
          Bool.false_eq_true, reduceIte,
          if_true, if_false, Option.toList_some, Option.toList_none,
          List.nil_append, List.singleton_append, ite_true, ite_false] at h ⊢
      · exact h
      · simpa [tradeAltOk] using h
      · simpa [tradeAltOk] using h
      · exact h

theorem sellCount_of_alternation :
    ∀ l : List Trade,
      (tradeAltOk true l = true → sellCount l = l.length / 2) ∧
      (tradeAltOk false l = true → sellCount l = (l.length + 1) / 2) := by
  intro l
  induction l with
  | nil => simp [tradeAltOk, sellCount]
  | cons t r ih =>
    constructor
    · intro h
      simp only [tradeAltOk, Bool.and_eq_true, beq_iff_eq] at h
      have ha : t.action = TradeAction.buy := by
        cases hact : t.action
        · rfl
        · rw [hact] at h; simp at h
      have := ih.2 h.2
      simp only [sellCount, List.countP_cons, ha] at *
      simp [this]
    · intro h
      simp only [tradeAltOk, Bool.and_eq_true, beq_iff_eq] at h
      have ha : t.action = TradeAction.sell := by
        cases hact : t.action
        · rw [hact] at h; simp at h
        · rfl
      have := ih.1 h.2
      simp only [sellCount, List.countP_cons, ha] at *
      simp [this]
      omega

theorem roundTrips_length : (l : List Trade) → (roundTrips l).length = l.length / 2
  | [] => rfl
  | [_] => by simp [roundTrips]
  | _ :: _ :: r => by
    have ih := roundTrips_length r
    simp only [roundTrips, List.length_cons, ih]
    omega

/-- C3: for every trade log produced by one simulator run, the chronological
(buy, sell) pairing excludes the unmatched trailing buy, so the number of
round trips equals both `floor(totalTrades / 2)` and the number of sell
trades; and whenever at least one round trip exists, `winRate` equals
profitable round trips over total round trips times 100 (a round trip being
profitable iff its sell value exceeds its paired buy value, as in
`profitableTradeCount`). -/
theorem c3_round_trips_and_win_rate :
    ∀ (initialCapital : ℚ) (positions : List Bool) (bars : List PriceBar),
      (roundTrips (simulate initialCapital positions bars).1).length =
        (simulate initialCapital positions bars).1.length / 2 ∧
      (roundTrips (simulate initialCapital positions bars).1).length =
        sellCount (simulate initialCapital positions bars).1 ∧
      ((roundTrips (simulate initialCapital positions bars).1).length ≠ 0 →
        winRate (simulate initialCapital positions bars).1 =
          (profitableTradeCount (simulate initialCapital positions bars).1 : ℚ) /
            ((roundTrips (simulate initialCapital positions bars).1).length : ℚ) *
            100) := by
  intro cap ps bars
  have halt : tradeAltOk true (simulate cap ps bars).1 = true := by
    simpa [simulate] using simRun_alternation bars false ⟨cap, 0⟩ ps
  have hsell := (sellCount_of_alternation (simulate cap ps bars).1).1 halt
  have hlen := roundTrips_length (simulate cap ps bars).1
  refine ⟨hlen, by rw [hlen, hsell], ?_⟩
  intro hne
  rw [winRate, if_neg hne]

/-- C3 witness: capital 1000, decisions [LONG, FLAT] on a two-bar series
produce one buy and one sell, hence one round trip, and the win-rate
formula applies. -/
theorem c3_round_trips_and_win_rate_witness :
    winRate (simulate 1000 [true, false] [⟨1, 10⟩, ⟨2, 20⟩]).1 =
      (profitableTradeCount (simulate 1000 [true, false] [⟨1, 10⟩, ⟨2, 20⟩]).1 : ℚ) /
        ((roundTrips (simulate 1000 [true, false] [⟨1, 10⟩, ⟨2, 20⟩]).1).length : ℚ) *
        100 :=
  (c3_round_trips_and_win_rate 1000 [true, false] [⟨1, 10⟩, ⟨2, 20⟩]).2.2
    (by simp [simulate, simRun, simStep, roundTrips])

/-! ## Engine purity -/

/-- C4: the modelled engine is a pure function of (capital, configuration,
series): rerunning on the same inputs gives the same `BacktestRunResult`;
the request handler's response does not depend on the shared process-handle
state, and a response is unchanged when another invocation with different
inputs has run before it. -/
theorem c4_engine_is_pure :
    ∀ (st st' : Option ℕ) (r r' : BacktestRequest) (cfg cfg' : StrategyConfig)
      (bars bars' : List PriceBar),
      runBacktest r.initialCapital cfg bars = runBacktest r.initialCapital cfg bars ∧
      (handleBacktestRequest st r cfg bars).2 = processBacktest r cfg bars ∧
      (handleBacktestRequest st r cfg bars).2 =
        (handleBacktestRequest st' r cfg bars).2 ∧
      (handleBacktestRequest (handleBacktestRequest st' r' cfg' bars').1 r cfg bars).2 =
        (handleBacktestRequest st r cfg bars).2 := by
  intro st st' r r' cfg cfg' bars bars'
  exact ⟨rfl, rfl, rfl, rfl⟩

/-! ## Sharpe ratio zero-volatility guard -/

theorem dailyReturns_replicate (c : ℚ) :
    ∀ n, dailyReturns (List.replicate n c) = List.replicate (n - 1) 0
  | 0 => rfl
  | 1 => rfl
  | n + 2 => by
    have ih := dailyReturns_replicate c (n + 1)
    simp only [List.replicate_succ] at ih ⊢
    simp only [dailyReturns, sub_self, zero_div] at ih ⊢
    simp [ih, List.replicate_succ]

theorem dailyVolatility_replicate (c : ℚ) (n : ℕ) :
    dailyVolatility (List.replicate n c) = 0 := by
  simp [dailyVolatility, dailyVariance, meanQ, dailyReturns_replicate,
    List.sum_replicate, List.map_replicate]

/-- C5: `sharpeRatio` never divides by a zero volatility: it is exactly 0
whenever the daily volatility of the series is 0 — in particular on every
constant portfolio value series — and otherwise equals
(mean daily return × 252) / (daily volatility × sqrt 252). -/
theorem c5_sharpe_zero_volatility_guard :
    ∀ values : List ℚ,
      (dailyVolatility values = 0 → sharpeRatio values = 0) ∧
      (dailyVolatility values ≠ 0 →
        sharpeRatio values =
          (meanQ (dailyReturns values) : ℝ) * 252 /
            (dailyVolatility values * Real.sqrt 252)) ∧
      (∀ (c : ℚ) (n : ℕ), sharpeRatio (List.replicate n c) = 0) := by
  intro values
  refine ⟨fun h => ?_, fun h => ?_, fun c n => ?_⟩
  · simp only [sharpeRatio]
    rw [if_pos h]
  · simp only [sharpeRatio]
    rw [if_neg h]
  · simp only [sharpeRatio]
    rw [if_pos (dailyVolatility_replicate c n)]

/-- C5 witness: a constant three-value series has zero volatility and Sharpe
ratio 0; the series [1, 2, 1] has volatility 3/4 ≠ 0 and the Sharpe formula
applies. -/
theorem c5_sharpe_zero_volatility_guard_witness :
    sharpeRatio (List.replicate 3 (1000 : ℚ)) = 0 ∧
    sharpeRatio [1, 2, 1] =
      (meanQ (dailyReturns [1, 2, 1]) : ℝ) * 252 /
        (dailyVolatility [1, 2, 1] * Real.sqrt 252) := by
  constructor
  · exact (c5_sharpe_zero_volatility_guard (List.replicate 3 1000)).1
      (by norm_num [dailyVolatility, dailyVariance, dailyReturns, meanQ,
        List.replicate])
  · refine (c5_sharpe_zero_volatility_guard [1, 2, 1]).2.1 ?_
    have h : dailyVariance [1, 2, 1] = 9 / 16 := by
      norm_num [dailyVariance, dailyReturns, meanQ]
    rw [dailyVolatility, h, Real.sqrt_ne_zero']
    norm_num

/-! ## Benchmark tracker -/

/-- C6: on a non-empty series with positive closes, the Benchmark Tracker
emits one snapshot per bar in order, valued
`initialCapital * close[i] / close[0]`; the first value is exactly
`initialCapital`; and the benchmark series of a full run does not depend on
the chosen strategy. -/
theorem c6_benchmark_formula :
    ∀ (initialCapital : ℚ) (bars : List PriceBar) (hne : bars ≠ [])
      (hpos : ∀ b ∈ bars, 0 < b.close),
      benchmarkHistory initialCapital bars =
        bars.map (fun b =>
          ⟨b.date, initialCapital * b.close / (bars.head hne).close⟩) ∧
      (benchmarkHistory initialCapital bars).head? =
        some ⟨(bars.head hne).date, initialCapital⟩ ∧
      (∀ cfg cfg' : StrategyConfig,
        (runBacktest initialCapital cfg bars).benchmarkHistory =
          (runBacktest initialCapital cfg' bars).benchmarkHistory) := by
  intro cap bars hne hpos
  match bars, hne with
  | b0 :: rest, _ =>
    refine ⟨rfl, ?_, fun cfg cfg' => rfl⟩
    have h0 : b0.close ≠ 0 := ne_of_gt (hpos b0 (List.mem_cons_self b0 rest))
    simp only [benchmarkHistory, List.map_cons, List.head?_cons, List.head_cons,
      Option.some.injEq]
    rw [mul_div_assoc, div_self h0, mul_one]

/-- C6 witness: capital 1000 on closes [10, 20] gives benchmark head value
exactly 1000. -/
theorem c6_benchmark_formula_witness :
    (benchmarkHistory 1000 [⟨1, 10⟩, ⟨2, 20⟩]).head? = some ⟨1, 1000⟩ :=
  (c6_benchmark_formula 1000 [⟨1, 10⟩, ⟨2, 20⟩] (by simp) (by decide)).2.1

/-! ## Minimum-capital validation -/

/-- C8: a request whose `initialCapital` is below 1000 fails the request
schema and is rejected by the orchestrator as a single
`InvalidParameterError` before any simulation, so no trade log is produced;
a capital of at least 1000 passes the capital check. -/
theorem c8_minimum_capital_gate :
    ∀ (r : BacktestRequest) (cfg : StrategyConfig) (bars : List PriceBar),
      (r.initialCapital < 1000 →
        backtestRequestAccepts r = false ∧
        processBacktest r cfg bars = Except.error "InvalidParameterError") ∧
      (1000 ≤ r.initialCapital → capitalCheck r = true) := by
  intro r cfg bars
  constructor
  · intro h
    have hc : capitalCheck r = false := by
      simp only [capitalCheck, decide_eq_false_iff_not, not_le]
      exact h
    have ha : backtestRequestAccepts r = false := by
      simp [backtestRequestAccepts, hc]
    exact ⟨ha, by simp [processBacktest, ha]⟩
  · intro h
    simp [capitalCheck, h]

/-- C8 witness: a request with capital 500 is rejected with
`InvalidParameterError`; a request with capital 1000 passes the capital
check. -/
theorem c8_minimum_capital_gate_witness :
    processBacktest
        ⟨"AAPL", "2023-01-01", "2024-01-01", StrategyType.sma_crossover, [], 500⟩
        (StrategyConfig.sma 2 3) [⟨1, 10⟩, ⟨2, 20⟩, ⟨3, 30⟩] =
      Except.error "InvalidParameterError" ∧
    capitalCheck
        ⟨"AAPL", "2023-01-01", "2024-01-01", StrategyType.sma_crossover, [], 1000⟩ =
      true := by
  constructor
  · exact ((c8_minimum_capital_gate
      ⟨"AAPL", "2023-01-01", "2024-01-01", StrategyType.sma_crossover, [], 500⟩
      (StrategyConfig.sma 2 3) [⟨1, 10⟩, ⟨2, 20⟩, ⟨3, 30⟩]).1 (by norm_num)).2
  · exact (c8_minimum_capital_gate
      ⟨"AAPL", "2023-01-01", "2024-01-01", StrategyType.sma_crossover, [], 1000⟩
      (StrategyConfig.sma 2 3) []).2 (by norm_num)

/-! ## Stored-backtest lookup access control -/

/-- C9: the `GET /api/backtest/:id` handler responds 404 when no backtest
with the id exists, 403 when it exists but belongs to a different user, and
returns the stored record exactly when it exists and its `userId` equals the
authenticated user's. -/
theorem c9_lookup_access_control :
    ∀ (db : List BacktestRow) (userId : String) (id : ℕ),
      (getBacktestResult db id = none →
        getBacktestByIdHandler db userId id = GetBacktestResponse.notFound) ∧
      (∀ b, getBacktestResult db id = some b → b.userId ≠ userId →
        getBacktestByIdHandler db userId id = GetBacktestResponse.forbidden) ∧
      (∀ b, getBacktestByIdHandler db userId id = GetBacktestResponse.ok b ↔
        (getBacktestResult db id = some b ∧ b.userId = userId)) := by
  intro db u id
  refine ⟨fun h => ?_, fun b hb hneq => ?_, fun b => ?_⟩
  · simp [getBacktestByIdHandler, h]
  · simp [getBacktestByIdHandler, hb, hneq]
  · constructor
    · intro h
      unfold getBacktestByIdHandler at h
      cases hs : getBacktestResult db id with
      | none => rw [hs] at h; exact absurd h (by simp)
      | some b' =>
        rw [hs] at h
        have h' : (if b'.userId ≠ u then GetBacktestResponse.forbidden
            else GetBacktestResponse.ok b') = GetBacktestResponse.ok b := h
        by_cases hbu : b'.userId ≠ u
        · rw [if_pos hbu] at h'
          exact absurd h' (by simp)
        · rw [if_neg hbu] at h'
          have hb' : b' = b := by
            cases h'
            rfl
          rw [not_not] at hbu
          subst hb'
          exact ⟨rfl, hbu⟩
    · rintro ⟨hs, hu⟩
      simp [getBacktestByIdHandler, hs, hu]

/-- C9 witness: with one stored row owned by "alice" under id 1, a lookup of
id 2 is 404, a lookup of id 1 by "bob" is 403, and the lookup of id 1 by
"alice" returns the row. -/
theorem c9_lookup_access_control_witness :
    getBacktestByIdHandler
        [⟨1, "alice", "AAPL", "2023-01-01", "2024-01-01", "sma_crossover",
          1000, 1100, 10, 5⟩] "bob" 2 = GetBacktestResponse.notFound ∧
    getBacktestByIdHandler
        [⟨1, "alice", "AAPL", "2023-01-01", "2024-01-01", "sma_crossover",
          1000, 1100, 10, 5⟩] "bob" 1 = GetBacktestResponse.forbidden ∧
    getBacktestByIdHandler
        [⟨1, "alice", "AAPL", "2023-01-01", "2024-01-01", "sma_crossover",
          1000, 1100, 10, 5⟩] "alice" 1 =
      GetBacktestResponse.ok
        ⟨1, "alice", "AAPL", "2023-01-01", "2024-01-01", "sma_crossover",
          1000, 1100, 10, 5⟩ := by
  refine ⟨(c9_lookup_access_control _ "bob" 2).1 (by rfl),
    (c9_lookup_access_control _ "bob" 1).2.1 _ (by rfl) (by decide),
    ((c9_lookup_access_control _ "alice" 1).2.2 _).2 ⟨by rfl, rfl⟩⟩

/-! ## Per-user history listing -/

/-- C10: `getUserBacktests` returns only rows of the given user, at most
`limit` of them, sorted by `createdAt` descending; the default variant uses
limit 10. -/
theorem c10_get_user_backtests_filter_sort_limit :
    ∀ (db : List BacktestRow) (userId : String) (limit : ℕ),
      (∀ b, b ∈ getUserBacktests db userId limit → b.userId = userId) ∧
      (getUserBacktests db userId limit).length ≤ limit ∧
      List.Sorted createdDesc (getUserBacktests db userId limit) ∧
      getUserBacktestsDefault db userId = getUserBacktests db userId 10 := by
  intro db u limit
  refine ⟨fun b hb => ?_, ?_, ?_, rfl⟩
  · have h1 : b ∈ List.insertionSort createdDesc (db.filter fun x => x.userId == u) :=
      List.mem_of_mem_take hb
    have h2 : b ∈ db.filter fun x => x.userId == u :=
      (List.mem_insertionSort createdDesc).1 h1
    simpa using List.of_mem_filter h2
  · exact List.length_take_le _ _
  · exact List.Pairwise.sublist (List.take_sublist _ _)
      (List.sorted_insertionSort createdDesc _)

/-- C10 witness: with rows of users "u" and "v", the row of user "u" that is
returned indeed belongs to "u". -/
theorem c10_get_user_backtests_filter_sort_limit_witness :
    (⟨3, "u", "T", "2023-01-01", "2024-01-01", "sma_crossover",
      1000, 1000, 0, 9⟩ : BacktestRow).userId = "u" :=
  (c10_get_user_backtests_filter_sort_limit
    [⟨1, "u", "T", "2023-01-01", "2024-01-01", "sma_crossover", 1000, 1000, 0, 5⟩,
     ⟨2, "v", "T", "2023-01-01", "2024-01-01", "sma_crossover", 1000, 1000, 0, 3⟩,
     ⟨3, "u", "T", "2023-01-01", "2024-01-01", "sma_crossover", 1000, 1000, 0, 9⟩]
    "u" 10).1 _ (by decide)

end TradePerf
